import Mathlib

/-
Verification of the task-coordination engine of the claude-bridge-server
repository. The definitions below are a shallow embedding of the TypeScript
source: `BridgeDatabase` (src/server/src/database.ts) becomes explicit state
passing over a `BridgeState` record, SQL queries become list operations, and
the MCP tool handlers (src/server/src/tools/architect.ts, tools/shared.ts and
the executor tool file) become functions from state and arguments to a typed
result paired with the post-state. Timestamps and generated UUIDs are passed
in as explicit string parameters, since the source obtains them from the
clock and a UUID generator.
-/

namespace Bridge

/-- Task priority levels, from types.ts. -/
inductive Priority
  | critical
  | high
  | normal
  | low
deriving DecidableEq, Repr

/-- The CASE expression used in ORDER BY clauses of database.ts
(critical = 1, high = 2, normal = 3, low = 4). -/
def Priority.rank : Priority → Nat
  | .critical => 1
  | .high => 2
  | .normal => 3
  | .low => 4

def Priority.text : Priority → String
  | .critical => "critical"
  | .high => "high"
  | .normal => "normal"
  | .low => "low"

/-- Task categories, from types.ts. -/
inductive Category
  | feature
  | bugfix
  | refactor
  | research
  | test
  | docs
deriving DecidableEq, Repr

/-- Task status lifecycle, from types.ts. -/
inductive TaskStatus
  | queued
  | claimed
  | in_progress
  | blocked
  | completed
  | failed
  | cancelled
deriving DecidableEq, Repr

def TaskStatus.text : TaskStatus → String
  | .queued => "queued"
  | .claimed => "claimed"
  | .in_progress => "in_progress"
  | .blocked => "blocked"
  | .completed => "completed"
  | .failed => "failed"
  | .cancelled => "cancelled"

/-- Agent identifiers, from types.ts. -/
inductive AgentRole
  | architect
  | executor
deriving DecidableEq, Repr

/-- Author of a decision: an agent role or a human, from types.ts
(AgentRole or the literal string for a human author). -/
inductive DecisionAuthor
  | agent (r : AgentRole)
  | human
deriving DecidableEq, Repr

/-- Task execution result, from types.ts. -/
structure TaskResult where
  success : Bool
  summary : String
  files_modified : List String
  files_created : List String
  files_deleted : List String
  commits : Option (List String) := none
  blockers : Option (List String) := none
  follow_up_tasks : Option (List String) := none
deriving DecidableEq, Repr

/-- Core task structure, from types.ts. -/
structure Task where
  id : String
  sequence : Nat
  priority : Priority
  category : Category
  status : TaskStatus
  title : String
  instructions : String
  acceptance_criteria : List String
  context_files : List String
  context_summary : Option String
  related_tasks : List String
  depends_on : List String
  created_by : AgentRole
  assigned_to : Option AgentRole
  created_at : String
  claimed_at : Option String
  started_at : Option String
  completed_at : Option String
  result : Option TaskResult
deriving DecidableEq, Repr

/-- Clarification request row, from types.ts. -/
structure ClarificationRequest where
  id : String
  task_id : String
  question : String
  options : Option (List String)
  response : Option String
  created_at : String
  responded_at : Option String
deriving DecidableEq, Repr

/-- Session context row, from types.ts. -/
structure SessionContext where
  id : String
  agent : AgentRole
  project_path : String
  current_task_id : Option String
  task_title : Option String
  working_on : String
  progress_made : String
  next_steps : String
  open_questions : List String
  files_in_focus : List String
  important_notes : String
  created_at : String
  resumed_at : Option String
deriving DecidableEq, Repr

/-- Architectural decision record, from types.ts. -/
structure Decision where
  id : String
  summary : String
  rationale : String
  made_by : DecisionAuthor
  made_at : String
  affects_files : List String
deriving DecidableEq, Repr

/-- Project state singleton, from types.ts. -/
structure ProjectState where
  current_focus : Option String
  recent_decisions : List Decision
  known_issues : List String
  last_sync : Option String
deriving DecidableEq, Repr

/-- A small JSON value model for event payloads (the source stores the
payload as serialized JSON of a string-keyed record). -/
inductive JsonLite
  | str (s : String)
  | num (n : Nat)
  | bool (b : Bool)
  | strList (xs : List String)
  | optStrList (xs : Option (List String))
  | null
deriving DecidableEq, Repr

/-- Event log entry, from types.ts; `id` is the autoincrementing row id. -/
structure EventLogEntry where
  id : Nat
  timestamp : String
  agent : AgentRole
  event_type : String
  task_id : Option String
  payload : List (String × JsonLite)
deriving DecidableEq, Repr

/-- The whole persistent state of one `BridgeDatabase` instance: the six
tables plus the sequence counter (sequence_counter row) and the database's
configured project path. -/
structure BridgeState where
  tasks : List Task
  seqCounter : Nat
  projectState : ProjectState
  eventLog : List EventLogEntry
  clarifications : List ClarificationRequest
  sessions : List SessionContext
  projectPath : String
deriving DecidableEq, Repr

/-- The fresh project state installed by `initialize` (current_focus NULL,
empty decisions and issues, last_sync NULL). -/
def initialProjectState : ProjectState :=
  { current_focus := none
    recent_decisions := []
    known_issues := []
    last_sync := none }

/-- A fresh database as produced by `initialize`: empty tables and the
sequence counter at 0. -/
def initialState (projectPath : String) : BridgeState :=
  { tasks := []
    seqCounter := 0
    projectState := initialProjectState
    eventLog := []
    clarifications := []
    sessions := []
    projectPath := projectPath }

/-- SELECT * FROM tasks WHERE id = ? (first matching row). -/
def findTask (l : List Task) (id : String) : Option Task :=
  l.find? (fun t => decide (t.id = id))

/-- `getTask` from database.ts. -/
def getTask (s : BridgeState) (id : String) : Option Task :=
  findTask s.tasks id

/-- Parameters of `createTask` in database.ts. -/
structure CreateTaskParams where
  title : String
  instructions : String
  acceptance_criteria : List String
  priority : Option Priority := none
  category : Option Category := none
  context_files : Option (List String) := none
  context_summary : Option String := none
  depends_on : Option (List String) := none
  created_by : AgentRole
  assigned_to : Option AgentRole := none
deriving Repr

/-- `createTask` from database.ts: allocates the next sequence value via
`nextSequence` (an atomic increment of the counter row), inserts a row with
status 'queued' and the given defaults, and returns the inserted task.
The UUID and the created_at timestamp are passed in. -/
def createTask (s : BridgeState) (p : CreateTaskParams) (id now : String) :
    Task × BridgeState :=
  let seq := s.seqCounter + 1
  let t : Task :=
    { id := id
      sequence := seq
      priority := p.priority.getD .normal
      category := p.category.getD .feature
      status := .queued
      title := p.title
      instructions := p.instructions
      acceptance_criteria := p.acceptance_criteria
      context_files := p.context_files.getD []
      context_summary := p.context_summary
      related_tasks := []
      depends_on := p.depends_on.getD []
      created_by := p.created_by
      assigned_to := p.assigned_to
      created_at := now
      claimed_at := none
      started_at := none
      completed_at := none
      result := none }
  (t, { s with seqCounter := seq, tasks := s.tasks ++ [t] })

/-- The partial-fields record accepted by `updateTask` in database.ts.
An outer `none` means the field is absent (undefined, not written); for
nullable columns the inner option is the stored value. -/
structure TaskUpdates where
  title : Option String := none
  instructions : Option String := none
  acceptance_criteria : Option (List String) := none
  priority : Option Priority := none
  category : Option Category := none
  status : Option TaskStatus := none
  context_files : Option (List String) := none
  context_summary : Option (Option String) := none
  assigned_to : Option (Option AgentRole) := none
  claimed_at : Option (Option String) := none
  started_at : Option (Option String) := none
  completed_at : Option (Option String) := none
  result : Option (Option TaskResult) := none
deriving Repr

/-- No field of the update record is present (the `fields.length === 0`
check in `updateTask`). -/
def TaskUpdates.isEmpty (u : TaskUpdates) : Bool :=
  u.title.isNone && u.instructions.isNone && u.acceptance_criteria.isNone &&
  u.priority.isNone && u.category.isNone && u.status.isNone &&
  u.context_files.isNone && u.context_summary.isNone && u.assigned_to.isNone &&
  u.claimed_at.isNone && u.started_at.isNone && u.completed_at.isNone &&
  u.result.isNone

/-- Apply the SET clauses of `updateTask` to one row. -/
def applyUpdates (t : Task) (u : TaskUpdates) : Task :=
  { t with
    title := u.title.getD t.title
    instructions := u.instructions.getD t.instructions
    acceptance_criteria := u.acceptance_criteria.getD t.acceptance_criteria
    priority := u.priority.getD t.priority
    category := u.category.getD t.category
    status := u.status.getD t.status
    context_files := u.context_files.getD t.context_files
    context_summary := u.context_summary.getD t.context_summary
    assigned_to := u.assigned_to.getD t.assigned_to
    claimed_at := u.claimed_at.getD t.claimed_at
    started_at := u.started_at.getD t.started_at
    completed_at := u.completed_at.getD t.completed_at
    result := u.result.getD t.result }

/-- `updateTask` from database.ts: returns false on an empty update record,
otherwise runs UPDATE tasks SET ... WHERE id = ? and reports whether any
row changed. -/
def updateTask (s : BridgeState) (id : String) (u : TaskUpdates) :
    Bool × BridgeState :=
  if u.isEmpty then (false, s)
  else
    (s.tasks.any (fun t => decide (t.id = id)),
     { s with tasks := s.tasks.map (fun t => if t.id = id then applyUpdates t u else t) })

/-- The ORDER BY relation shared by `listTasks` and `pullNextTask`:
priority rank ascending, then sequence ascending. -/
def taskBefore (a b : Task) : Prop :=
  a.priority.rank < b.priority.rank ∨
    (a.priority.rank = b.priority.rank ∧ a.sequence ≤ b.sequence)

instance : DecidableRel taskBefore := fun a b =>
  inferInstanceAs (Decidable (a.priority.rank < b.priority.rank ∨
    (a.priority.rank = b.priority.rank ∧ a.sequence ≤ b.sequence)))

instance : IsTotal Task taskBefore where
  total a b := by
    unfold taskBefore
    omega

instance : IsTrans Task taskBefore where
  trans a b c hab hbc := by
    unfold taskBefore at *
    omega

/-- The optional status filter of `listTasks` (a single status or an array
of statuses in the source). -/
inductive StatusFilter
  | noFilter
  | single (st : TaskStatus)
  | multi (sts : List TaskStatus)
deriving DecidableEq, Repr

def StatusFilter.matches : StatusFilter → TaskStatus → Bool
  | .noFilter, _ => true
  | .single st, x => decide (x = st)
  | .multi sts, x => decide (x ∈ sts)

/-- Parameters of `listTasks`; `offset` is accepted by the logical interface
(ListTasksParams in types.ts) but, as in the source query, never used. -/
structure ListTasksDbParams where
  status : StatusFilter := .noFilter
  assigned_to : Option AgentRole := none
  limit : Option Nat := none
  offset : Option Nat := none
deriving Repr

/-- `listTasks` from database.ts: WHERE clauses for status and assignee,
ORDER BY priority rank then sequence, optional LIMIT. No OFFSET clause is
ever built. -/
def listTasks (s : BridgeState) (p : ListTasksDbParams) : List Task :=
  let rows := s.tasks.filter (fun t =>
    p.status.matches t.status &&
    (match p.assigned_to with
     | none => true
     | some r => decide (t.assigned_to = some r)))
  let ordered := List.insertionSort taskBefore rows
  match p.limit with
  | none => ordered
  | some n => ordered.take n

/-- Parameters of `pullNextTask` in database.ts. -/
structure PullTaskDbParams where
  categories : Option (List Category) := none
  assigned_to : Option AgentRole := none
deriving Repr

/-- The WHERE clause of `pullNextTask`: status 'queued', optional category
IN-filter (applied only when a non-empty list is given), and the optional
assignee filter (assigned_to = ? OR assigned_to IS NULL). -/
def pullCandidate (p : PullTaskDbParams) (t : Task) : Bool :=
  decide (t.status = .queued) &&
  (match p.categories with
   | none => true
   | some cats => if cats.isEmpty then true else decide (t.category ∈ cats)) &&
  (match p.assigned_to with
   | none => true
   | some r => decide (t.assigned_to = some r ∨ t.assigned_to = none))

/-- SELECT COUNT(*) FROM tasks WHERE id IN (deps) AND status != 'completed',
the per-task dependency check of `pullNextTask`. -/
def openDependencyCount (s : BridgeState) (deps : List String) : Nat :=
  (s.tasks.filter (fun u => decide (u.id ∈ deps) && decide (u.status ≠ .completed))).length

/-- One step of the scan in `pullNextTask`: the task is returned when its
depends_on list is empty, or when no dependency row is non-completed. -/
def dependenciesSatisfied (s : BridgeState) (t : Task) : Bool :=
  t.depends_on.isEmpty || decide (openDependencyCount s t.depends_on = 0)

/-- `pullNextTask` from database.ts: order the queued tasks matching the
filters by priority rank then sequence, and return the first whose
dependencies are satisfied (null when none is). -/
def pullNextTask (s : BridgeState) (p : PullTaskDbParams) : Option Task :=
  (List.insertionSort taskBefore (s.tasks.filter (pullCandidate p))).find?
    (dependenciesSatisfied s)

/-- `getQueuePosition` from database.ts: -1 for a missing or non-queued
task, otherwise 1 plus the number of queued tasks strictly before it in
the scheduler order. -/
def getQueuePosition (s : BridgeState) (taskId : String) : Int :=
  match getTask s taskId with
  | none => -1
  | some t =>
    if t.status ≠ .queued then -1
    else
      ((s.tasks.filter (fun u =>
        decide (u.status = .queued) &&
        decide (u.priority.rank < t.priority.rank ∨
          (u.priority = t.priority ∧ u.sequence < t.sequence)))).length : Int) + 1

/-- Task-count summary of `getTaskCountsByStatus` in database.ts. -/
structure StatusCounts where
  queued : Nat
  claimed : Nat
  in_progress : Nat
  blocked : Nat
  completed : Nat
  failed : Nat
  cancelled : Nat
deriving DecidableEq, Repr

def getTaskCountsByStatus (s : BridgeState) : StatusCounts :=
  { queued := (s.tasks.filter (fun t => decide (t.status = .queued))).length
    claimed := (s.tasks.filter (fun t => decide (t.status = .claimed))).length
    in_progress := (s.tasks.filter (fun t => decide (t.status = .in_progress))).length
    blocked := (s.tasks.filter (fun t => decide (t.status = .blocked))).length
    completed := (s.tasks.filter (fun t => decide (t.status = .completed))).length
    failed := (s.tasks.filter (fun t => decide (t.status = .failed))).length
    cancelled := (s.tasks.filter (fun t => decide (t.status = .cancelled))).length }

/-- Descending comparison on nullable timestamps; a NULL is the smallest
value in SQLite, so it sorts last under DESC. -/
def optTimeGE : Option String → Option String → Prop
  | none, none => True
  | none, some _ => False
  | some _, none => True
  | some x, some y => y ≤ x

instance : DecidableRel optTimeGE := fun a b => by
  cases a <;> cases b <;> simp only [optTimeGE] <;> infer_instance

theorem optTimeGE_total (a b : Option String) : optTimeGE a b ∨ optTimeGE b a := by
  cases a <;> cases b <;> simp [optTimeGE, le_total]

theorem optTimeGE_trans (a b c : Option String) (hab : optTimeGE a b)
    (hbc : optTimeGE b c) : optTimeGE a c := by
  cases a <;> cases b <;> cases c <;> simp_all [optTimeGE]
  exact le_trans hbc hab

/-- ORDER BY completed_at DESC of `getTaskHistory`. -/
def historyBefore (a b : Task) : Prop :=
  optTimeGE a.completed_at b.completed_at

instance : DecidableRel historyBefore := fun a b =>
  inferInstanceAs (Decidable (optTimeGE a.completed_at b.completed_at))

instance : IsTotal Task historyBefore where
  total a b := optTimeGE_total a.completed_at b.completed_at

instance : IsTrans Task historyBefore where
  trans _ _ _ hab hbc := optTimeGE_trans _ _ _ hab hbc

/-- Parameters of `getTaskHistory`; `offset` is accepted by the logical
interface (GetHistoryParams in types.ts) but never used by the query. -/
structure GetHistoryDbParams where
  since : Option String := none
  limit : Option Nat := none
  offset : Option Nat := none
  category : Option Category := none
deriving Repr

/-- `getTaskHistory` from database.ts: terminal-status tasks, optional
completed_at >= since filter (NULL completed_at never matches), optional
category filter, ORDER BY completed_at DESC, optional LIMIT. -/
def getTaskHistory (s : BridgeState) (p : GetHistoryDbParams) : List Task :=
  let rows := s.tasks.filter (fun t =>
    decide (t.status = .completed ∨ t.status = .failed ∨ t.status = .cancelled) &&
    (match p.since with
     | none => true
     | some ts =>
       match t.completed_at with
       | none => false
       | some ca => decide (ts ≤ ca)) &&
    (match p.category with
     | none => true
     | some c => decide (t.category = c)))
  let ordered := List.insertionSort historyBefore rows
  match p.limit with
  | none => ordered
  | some n => ordered.take n

/-- `saveSessionContext` parameters from database.ts. -/
structure SaveSessionParams where
  agent : AgentRole
  current_task_id : Option String := none
  working_on : String
  progress_made : String
  next_steps : String
  open_questions : Option (List String) := none
  files_in_focus : Option (List String) := none
  important_notes : Option String := none
deriving Repr

/-- `saveSessionContext` from database.ts: copies the referenced task's
title (if any), inserts a new session row scoped to the database's project
path, and returns it. -/
def saveSessionContext (s : BridgeState) (p : SaveSessionParams) (id now : String) :
    SessionContext × BridgeState :=
  let taskTitle : Option String :=
    match p.current_task_id with
    | none => none
    | some tid =>
      match getTask s tid with
      | none => none
      | some t => some t.title
  let row : SessionContext :=
    { id := id
      agent := p.agent
      project_path := s.projectPath
      current_task_id := p.current_task_id
      task_title := taskTitle
      working_on := p.working_on
      progress_made := p.progress_made
      next_steps := p.next_steps
      open_questions := p.open_questions.getD []
      files_in_focus := p.files_in_focus.getD []
      important_notes := p.important_notes.getD ""
      created_at := now
      resumed_at := none }
  (row, { s with sessions := s.sessions ++ [row] })

/-- SELECT * FROM sessions WHERE id = ?. -/
def getSessionContext (s : BridgeState) (id : String) : Option SessionContext :=
  s.sessions.find? (fun c => decide (c.id = id))

/-- ORDER BY created_at DESC for session listings. -/
def sessionBefore (a b : SessionContext) : Prop :=
  b.created_at ≤ a.created_at

instance : DecidableRel sessionBefore := fun a b =>
  inferInstanceAs (Decidable (b.created_at ≤ a.created_at))

instance : IsTotal SessionContext sessionBefore where
  total a b := le_total b.created_at a.created_at

instance : IsTrans SessionContext sessionBefore where
  trans _ _ _ hab hbc := le_trans hbc hab

/-- Parameters of `listSessionContexts`; `offset` is accepted by the tool
layer but never used by the query. -/
structure ListSessionsDbParams where
  agent : Option AgentRole := none
  include_resumed : Option Bool := none
  limit : Option Nat := none
  offset : Option Nat := none
deriving Repr

/-- `listSessionContexts` from database.ts: sessions of this project,
optional agent filter, resumed ones excluded unless requested, newest
first, optional LIMIT. No OFFSET clause is ever built. -/
def listSessionContexts (s : BridgeState) (p : ListSessionsDbParams) :
    List SessionContext :=
  let rows := s.sessions.filter (fun c =>
    decide (c.project_path = s.projectPath) &&
    (match p.agent with
     | none => true
     | some a => decide (c.agent = a)) &&
    (if p.include_resumed.getD false then true else c.resumed_at.isNone))
  let ordered := List.insertionSort sessionBefore rows
  match p.limit with
  | none => ordered
  | some n => ordered.take n

/-- `markSessionResumed` from database.ts: UPDATE sessions SET resumed_at =
now WHERE id = ?; reports whether a row matched. The SET clause runs
unconditionally on every matching row, whatever resumed_at held before. -/
def markSessionResumed (s : BridgeState) (id now : String) : Bool × BridgeState :=
  (s.sessions.any (fun c => decide (c.id = id)),
   { s with sessions := s.sessions.map (fun c =>
       if c.id = id then { c with resumed_at := some now } else c) })

/-- `getProjectState` from database.ts. -/
def getProjectState (s : BridgeState) : ProjectState :=
  s.projectState

/-- Partial-fields record of `updateProjectState`. -/
structure ProjectStateUpdates where
  current_focus : Option (Option String) := none
  known_issues : Option (List String) := none
  last_sync : Option String := none
deriving Repr

def ProjectStateUpdates.isEmpty (u : ProjectStateUpdates) : Bool :=
  u.current_focus.isNone && u.known_issues.isNone && u.last_sync.isNone

/-- `updateProjectState` from database.ts: false on an empty update record,
otherwise UPDATE of the singleton row (which always exists, so one row
changes). -/
def updateProjectState (s : BridgeState) (u : ProjectStateUpdates) :
    Bool × BridgeState :=
  if u.isEmpty then (false, s)
  else
    (true,
     { s with projectState :=
        { s.projectState with
          current_focus := u.current_focus.getD s.projectState.current_focus
          known_issues := u.known_issues.getD s.projectState.known_issues
          last_sync :=
            match u.last_sync with
            | none => s.projectState.last_sync
            | some v => some v } })

/-- Parameters of `addDecision` in database.ts. -/
structure AddDecisionParams where
  summary : String
  rationale : String
  made_by : DecisionAuthor
  affects_files : Option (List String) := none
deriving Repr

/-- The decision record built at the top of `addDecision`. -/
def decisionOf (p : AddDecisionParams) (id now : String) : Decision :=
  { id := id
    summary := p.summary
    rationale := p.rationale
    made_by := p.made_by
    made_at := now
    affects_files := p.affects_files.getD [] }

/-- `addDecision` from database.ts: append the new decision to the stored
list, keep only the last 50 entries (slice(-50)), and persist the result. -/
def addDecision (s : BridgeState) (p : AddDecisionParams) (id now : String) :
    Decision × BridgeState :=
  let d := decisionOf p id now
  let decisions := s.projectState.recent_decisions ++ [d]
  let kept := decisions.drop (decisions.length - 50)
  (d, { s with projectState := { s.projectState with recent_decisions := kept } })

/-- Parameters of `createClarification` in database.ts. -/
structure CreateClarificationParams where
  task_id : String
  question : String
  options : Option (List String) := none
deriving Repr

/-- `createClarification` from database.ts: insert a clarification row with
NULL response and return it. -/
def createClarification (s : BridgeState) (p : CreateClarificationParams)
    (id now : String) : ClarificationRequest × BridgeState :=
  let row : ClarificationRequest :=
    { id := id
      task_id := p.task_id
      question := p.question
      options := p.options
      response := none
      created_at := now
      responded_at := none }
  (row, { s with clarifications := s.clarifications ++ [row] })

/-- SELECT * FROM clarifications WHERE id = ?. -/
def getClarification (s : BridgeState) (id : String) : Option ClarificationRequest :=
  s.clarifications.find? (fun c => decide (c.id = id))

/-- `respondToClarification` from database.ts: UPDATE clarifications SET
response = ?, responded_at = now WHERE id = ?; reports whether a row
matched. The SET clause runs unconditionally on every matching row, even
when a response is already stored. -/
def respondToClarification (s : BridgeState) (id response now : String) :
    Bool × BridgeState :=
  (s.clarifications.any (fun c => decide (c.id = id)),
   { s with clarifications := s.clarifications.map (fun c =>
       if c.id = id then { c with response := some response, responded_at := some now } else c) })

/-- `logEvent` from database.ts: pure append to the event log with an
autoincremented id. -/
def logEvent (s : BridgeState) (agent : AgentRole) (event_type : String)
    (task_id : Option String) (payload : List (String × JsonLite)) (now : String) :
    BridgeState :=
  { s with eventLog := s.eventLog ++
      [{ id := s.eventLog.length + 1
         timestamp := now
         agent := agent
         event_type := event_type
         task_id := task_id
         payload := payload }] }

/-- ORDER BY timestamp DESC for `getEvents`. -/
def eventBefore (a b : EventLogEntry) : Prop :=
  b.timestamp ≤ a.timestamp

instance : DecidableRel eventBefore := fun a b =>
  inferInstanceAs (Decidable (b.timestamp ≤ a.timestamp))

instance : IsTotal EventLogEntry eventBefore where
  total a b := le_total b.timestamp a.timestamp

instance : IsTrans EventLogEntry eventBefore where
  trans _ _ _ hab hbc := le_trans hbc hab

/-- Parameters of `getEvents`; `offset` is accepted by the tool layer but
never used by the query. -/
structure GetEventsDbParams where
  since : Option String := none
  task_id : Option String := none
  limit : Option Nat := none
  offset : Option Nat := none
deriving Repr

/-- `getEvents` from database.ts: optional timestamp >= since and task_id
filters, ORDER BY timestamp DESC, optional LIMIT. No OFFSET clause is ever
built. -/
def getEvents (s : BridgeState) (p : GetEventsDbParams) : List EventLogEntry :=
  let rows := s.eventLog.filter (fun e =>
    (match p.since with
     | none => true
     | some ts => decide (ts ≤ e.timestamp)) &&
    (match p.task_id with
     | none => true
     | some tid => decide (e.task_id = some tid)))
  let ordered := List.insertionSort eventBefore rows
  match p.limit with
  | none => ordered
  | some n => ordered.take n

/-
The tool-handler layer. Each MCP tool handler from tools/architect.ts,
tools/shared.ts and the executor tool file becomes a function returning a
typed result (or a typed failure, standing for the Error the handler
throws) together with the post-state. The error kinds follow the messages
thrown by the handlers.
-/

/-- Typed failures of the tool handlers: NotFound for a missing task,
clarification or session; InvalidStateTransition names the current status
a disallowed transition was attempted from; DependencyUnmet carries the
incomplete dependency ids of a claim attempt; DependencyNotFound names a
dependency id that does not reference an existing task at creation. -/
inductive BridgeError
  | NotFound (id : String)
  | InvalidStateTransition (current : TaskStatus)
  | DependencyUnmet (ids : List String)
  | DependencyNotFound (id : String)
deriving DecidableEq, Repr

/-- Arguments of bridge_push_task (PushTaskParams in types.ts). -/
structure PushTaskParams where
  title : String
  instructions : String
  acceptance_criteria : List String
  priority : Option Priority := none
  category : Option Category := none
  context_files : Option (List String) := none
  context_summary : Option String := none
  depends_on : Option (List String) := none
  assign_to : Option AgentRole := none
deriving Repr

structure PushTaskOut where
  task_id : String
  queue_position : Int
  status : TaskStatus
deriving DecidableEq, Repr

/-- The bridge_push_task handler from tools/architect.ts: every id in the
caller-supplied dependency list must reference an existing task (throws on
the first that does not), then the task is created, a task_created event
is logged and the queue position is reported. -/
def bridge_push_task (s : BridgeState) (p : PushTaskParams) (id now : String) :
    Except BridgeError PushTaskOut × BridgeState :=
  match (p.depends_on.getD []).find? (fun d => (getTask s d).isNone) with
  | some d => (.error (.DependencyNotFound d), s)
  | none =>
    let r := createTask s
      { title := p.title
        instructions := p.instructions
        acceptance_criteria := p.acceptance_criteria
        priority := p.priority
        category := p.category
        context_files := p.context_files
        context_summary := p.context_summary
        depends_on := p.depends_on
        created_by := .architect
        assigned_to := p.assign_to } id now
    let s2 := logEvent r.2 .architect "task_created" (some r.1.id)
      [("title", .str r.1.title), ("priority", .str r.1.priority.text)] now
    (.ok { task_id := r.1.id
           queue_position := getQueuePosition s2 r.1.id
           status := r.1.status }, s2)

/-- The `updates` object accepted by bridge_update_task (UpdateTaskSchema
in tools/architect.ts): only these seven fields can appear; in particular
the status can never be set through this tool. -/
structure UpdateTaskFields where
  title : Option String := none
  instructions : Option String := none
  acceptance_criteria : Option (List String) := none
  priority : Option Priority := none
  context_files : Option (List String) := none
  context_summary : Option (Option String) := none
  assigned_to : Option (Option AgentRole) := none
deriving Repr

def UpdateTaskFields.toTaskUpdates (u : UpdateTaskFields) : TaskUpdates :=
  { title := u.title
    instructions := u.instructions
    acceptance_criteria := u.acceptance_criteria
    priority := u.priority
    context_files := u.context_files
    context_summary := u.context_summary
    assigned_to := u.assigned_to }

/-- Object.keys of the updates record, for the event payload. -/
def UpdateTaskFields.keys (u : UpdateTaskFields) : List String :=
  (if u.title.isSome then ["title"] else []) ++
  (if u.instructions.isSome then ["instructions"] else []) ++
  (if u.acceptance_criteria.isSome then ["acceptance_criteria"] else []) ++
  (if u.priority.isSome then ["priority"] else []) ++
  (if u.context_files.isSome then ["context_files"] else []) ++
  (if u.context_summary.isSome then ["context_summary"] else []) ++
  (if u.assigned_to.isSome then ["assigned_to"] else [])

structure UpdateTaskOut where
  success : Bool
  task_id : String
deriving DecidableEq, Repr

/-- The bridge_update_task handler from tools/architect.ts: the task must
exist and must not be in a terminal state (completed, failed, cancelled);
then the partial update is applied and, on a change, logged. -/
def bridge_update_task (s : BridgeState) (taskId : String) (u : UpdateTaskFields)
    (now : String) : Except BridgeError UpdateTaskOut × BridgeState :=
  match getTask s taskId with
  | none => (.error (.NotFound taskId), s)
  | some t =>
    if t.status = .completed ∨ t.status = .failed ∨ t.status = .cancelled then
      (.error (.InvalidStateTransition t.status), s)
    else
      let r := updateTask s taskId u.toTaskUpdates
      let s2 :=
        if r.1 then
          logEvent r.2 .architect "task_updated" (some taskId)
            [("updates", .strList u.keys)] now
        else r.2
      (.ok { success := r.1, task_id := taskId }, s2)

structure CancelTaskOut where
  success : Bool
  task_id : String
deriving DecidableEq, Repr

/-- The bridge_cancel_task handler from tools/architect.ts: only queued or
blocked tasks can be cancelled; on success the status becomes cancelled,
completed_at is set and a task_cancelled event is logged. -/
def bridge_cancel_task (s : BridgeState) (taskId : String) (reason : Option String)
    (now : String) : Except BridgeError CancelTaskOut × BridgeState :=
  match getTask s taskId with
  | none => (.error (.NotFound taskId), s)
  | some t =>
    if t.status = .queued ∨ t.status = .blocked then
      let r := updateTask s taskId { status := some .cancelled, completed_at := some (some now) }
      let s2 :=
        if r.1 then
          logEvent r.2 .architect "task_cancelled" (some taskId)
            [("reason", match reason with | some x => .str x | none => .null)] now
        else r.2
      (.ok { success := r.1, task_id := taskId }, s2)
    else
      (.error (.InvalidStateTransition t.status), s)

structure RespondClarificationOut where
  success : Bool
  clarification_id : String
deriving DecidableEq, Repr

/-- The bridge_respond_clarification handler from tools/architect.ts: runs
the unconditional UPDATE of `respondToClarification` first and throws
NotFound only when no row matched; on a match it logs the response. -/
def bridge_respond_clarification (s : BridgeState) (clarId response now : String) :
    Except BridgeError RespondClarificationOut × BridgeState :=
  let r := respondToClarification s clarId response now
  if r.1 then
    let s2 := logEvent r.2 .architect "clarification_responded" none
      [("clarification_id", .str clarId)] now
    (.ok { success := true, clarification_id := clarId }, s2)
  else
    (.error (.NotFound clarId), r.2)

/-- The task view returned by bridge_claim_task. -/
structure ClaimedTaskView where
  id : String
  title : String
  priority : Priority
  category : Category
  instructions : String
  acceptance_criteria : List String
  context_files : List String
  context_summary : Option String
deriving DecidableEq, Repr

def taskView (t : Task) : ClaimedTaskView :=
  { id := t.id
    title := t.title
    priority := t.priority
    category := t.category
    instructions := t.instructions
    acceptance_criteria := t.acceptance_criteria
    context_files := t.context_files
    context_summary := t.context_summary }

structure ClaimTaskOut where
  success : Bool
  task : ClaimedTaskView
deriving DecidableEq, Repr

/-- The bridge_claim_task handler from the executor tool file: the task
must exist, must be queued, and every dependency row that exists must be
completed (missing dependency rows are skipped by the filter(Boolean) in
the source); on success the status becomes claimed, the executor is
assigned, claimed_at is set, and a task_claimed event is logged. The
handler re-reads the task to build the returned view (the source uses a
non-null assertion there; the task is known to exist). -/
def bridge_claim_task (s : BridgeState) (taskId now : String) :
    Except BridgeError ClaimTaskOut × BridgeState :=
  match getTask s taskId with
  | none => (.error (.NotFound taskId), s)
  | some t =>
    if t.status = .queued then
      let deps := t.depends_on.filterMap (getTask s)
      let incomplete := deps.filter (fun d => decide (d.status ≠ .completed))
      if incomplete.isEmpty then
        let r := updateTask s taskId
          { status := some .claimed
            assigned_to := some (some .executor)
            claimed_at := some (some now) }
        let s2 := if r.1 then logEvent r.2 .executor "task_claimed" (some taskId) [] now else r.2
        (.ok { success := r.1, task := taskView ((getTask s2 taskId).getD t) }, s2)
      else
        (.error (.DependencyUnmet (incomplete.map (fun d => d.id))), s)
    else
      (.error (.InvalidStateTransition t.status), s)

/-- The two statuses accepted by bridge_report_progress. -/
inductive ReportStatus
  | in_progress
  | blocked
deriving DecidableEq, Repr

def ReportStatus.toTaskStatus : ReportStatus → TaskStatus
  | .in_progress => .in_progress
  | .blocked => .blocked

/-- Arguments of bridge_report_progress (ReportProgressParams in types.ts). -/
structure ReportProgressParams where
  task_id : String
  status : ReportStatus
  message : String
  files_touched : Option (List String) := none
deriving Repr

structure ReportProgressOut where
  acknowledged : Bool
  task_id : String
  current_status : ReportStatus
deriving DecidableEq, Repr

/-- The bridge_report_progress handler from the executor tool file: allowed
only from claimed or in_progress; the first report away from claimed also
sets started_at; the progress event is always logged after the update. -/
def bridge_report_progress (s : BridgeState) (p : ReportProgressParams)
    (now : String) : Except BridgeError ReportProgressOut × BridgeState :=
  match getTask s p.task_id with
  | none => (.error (.NotFound p.task_id), s)
  | some t =>
    if t.status = .claimed ∨ t.status = .in_progress then
      let upd : TaskUpdates :=
        { status := some p.status.toTaskStatus
          started_at := if t.status = .claimed then some (some now) else none }
      let r := updateTask s p.task_id upd
      let s2 := logEvent r.2 .executor "progress_reported" (some p.task_id)
        [("status", .str p.status.toTaskStatus.text),
         ("message", .str p.message),
         ("files_touched", .optStrList p.files_touched)] now
      (.ok { acknowledged := true, task_id := p.task_id, current_status := p.status }, s2)
    else
      (.error (.InvalidStateTransition t.status), s)

structure NextTaskView where
  id : String
  title : String
  priority : Priority
deriving DecidableEq, Repr

structure CompleteTaskOut where
  success : Bool
  task_id : String
  next_task : Option NextTaskView
deriving DecidableEq, Repr

/-- The bridge_complete_task handler from the executor tool file: allowed
only from claimed or in_progress; sets status completed, completed_at and
the result record, logs a task_completed event, then pulls the next
available executor task for the reply. -/
def bridge_complete_task (s : BridgeState) (taskId : String) (result : TaskResult)
    (now : String) : Except BridgeError CompleteTaskOut × BridgeState :=
  match getTask s taskId with
  | none => (.error (.NotFound taskId), s)
  | some t =>
    if t.status = .claimed ∨ t.status = .in_progress then
      let r := updateTask s taskId
        { status := some .completed
          completed_at := some (some now)
          result := some (some result) }
      let s2 :=
        if r.1 then
          logEvent r.2 .executor "task_completed" (some taskId)
            [("success", .bool result.success),
             ("files_modified", .num result.files_modified.length),
             ("files_created", .num result.files_created.length)] now
        else r.2
      let nextTask := pullNextTask s2 { assigned_to := some .executor }
      (.ok { success := r.1
             task_id := taskId
             next_task := nextTask.map (fun n =>
               { id := n.id, title := n.title, priority := n.priority }) }, s2)
    else
      (.error (.InvalidStateTransition t.status), s)

/-- Arguments of bridge_fail_task (FailTaskParams in types.ts). -/
structure FailTaskParams where
  task_id : String
  error : String
  recoverable : Bool
  blockers : Option (List String) := none
deriving Repr

structure FailTaskOut where
  success : Bool
  task_id : String
  recoverable : Bool
deriving DecidableEq, Repr

/-- The bridge_fail_task handler from the executor tool file: allowed from
claimed, in_progress or blocked; writes a result record with success false
and the error as summary, sets completed_at, and logs a task_failed
event. -/
def bridge_fail_task (s : BridgeState) (p : FailTaskParams) (now : String) :
    Except BridgeError FailTaskOut × BridgeState :=
  match getTask s p.task_id with
  | none => (.error (.NotFound p.task_id), s)
  | some t =>
    if t.status = .claimed ∨ t.status = .in_progress ∨ t.status = .blocked then
      let result : TaskResult :=
        { success := false
          summary := p.error
          files_modified := []
          files_created := []
          files_deleted := []
          blockers := p.blockers }
      let r := updateTask s p.task_id
        { status := some .failed
          completed_at := some (some now)
          result := some (some result) }
      let s2 :=
        if r.1 then
          logEvent r.2 .executor "task_failed" (some p.task_id)
            [("error", .str p.error),
             ("recoverable", .bool p.recoverable),
             ("blockers", .optStrList p.blockers)] now
        else r.2
      (.ok { success := r.1, task_id := p.task_id, recoverable := p.recoverable }, s2)
    else
      (.error (.InvalidStateTransition t.status), s)

/-- Arguments of bridge_request_clarification (RequestClarificationParams
in types.ts). -/
structure RequestClarificationParams where
  task_id : String
  question : String
  options : Option (List String) := none
deriving Repr

structure RequestClarificationOut where
  request_id : String
  task_id : String
  status : TaskStatus
  message : String
deriving DecidableEq, Repr

/-- The bridge_request_clarification handler from the executor tool file:
allowed only from claimed or in_progress; creates a clarification row with
null response, forces the task status to blocked, and logs the request. -/
def bridge_request_clarification (s : BridgeState) (p : RequestClarificationParams)
    (id now : String) : Except BridgeError RequestClarificationOut × BridgeState :=
  match getTask s p.task_id with
  | none => (.error (.NotFound p.task_id), s)
  | some t =>
    if t.status = .claimed ∨ t.status = .in_progress then
      let c := createClarification s
        { task_id := p.task_id, question := p.question, options := p.options } id now
      let r := updateTask c.2 p.task_id { status := some .blocked }
      let s2 := logEvent r.2 .executor "clarification_requested" (some p.task_id)
        [("clarification_id", .str c.1.id), ("question", .str p.question)] now
      (.ok { request_id := c.1.id
             task_id := p.task_id
             status := .blocked
             message := "Task blocked pending clarification from Architect" }, s2)
    else
      (.error (.InvalidStateTransition t.status), s)

/-- One invocation of any of the nine state-changing tool operations,
with its generated UUID and timestamps as explicit data. -/
inductive BridgeOp
  | push (p : PushTaskParams) (id now : String)
  | update (taskId : String) (u : UpdateTaskFields) (now : String)
  | cancel (taskId : String) (reason : Option String) (now : String)
  | claim (taskId now : String)
  | report (p : ReportProgressParams) (now : String)
  | complete (taskId : String) (r : TaskResult) (now : String)
  | fail (p : FailTaskParams) (now : String)
  | requestClar (p : RequestClarificationParams) (id now : String)
  | respondClar (clarId response now : String)

/-- Run one state-changing operation, keeping the typed failure and the
post-state and discarding the operation-specific success payload. -/
def runOp (s : BridgeState) : BridgeOp → Except BridgeError Unit × BridgeState
  | .push p id now =>
    let r := bridge_push_task s p id now
    (r.1.map (fun _ => ()), r.2)
  | .update taskId u now =>
    let r := bridge_update_task s taskId u now
    (r.1.map (fun _ => ()), r.2)
  | .cancel taskId reason now =>
    let r := bridge_cancel_task s taskId reason now
    (r.1.map (fun _ => ()), r.2)
  | .claim taskId now =>
    let r := bridge_claim_task s taskId now
    (r.1.map (fun _ => ()), r.2)
  | .report p now =>
    let r := bridge_report_progress s p now
    (r.1.map (fun _ => ()), r.2)
  | .complete taskId res now =>
    let r := bridge_complete_task s taskId res now
    (r.1.map (fun _ => ()), r.2)
  | .fail p now =>
    let r := bridge_fail_task s p now
    (r.1.map (fun _ => ()), r.2)
  | .requestClar p id now =>
    let r := bridge_request_clarification s p id now
    (r.1.map (fun _ => ()), r.2)
  | .respondClar clarId response now =>
    let r := bridge_respond_clarification s clarId response now
    (r.1.map (fun _ => ()), r.2)

/-
The four read-only list tools with pagination parameters, from
tools/shared.ts. Each handler forwards its offset argument to the store
query, which (see above) never uses it.
-/

/-- Arguments of bridge_list_tasks (ListTasksParams in types.ts). -/
structure ListTasksToolParams where
  status : StatusFilter := .noFilter
  assigned_to : Option AgentRole := none
  limit : Option Nat := none
  offset : Option Nat := none
deriving Repr

structure ListedTask where
  id : String
  title : String
  priority : Priority
  category : Category
  status : TaskStatus
  assigned_to : Option AgentRole
  created_at : String
  depends_on_count : Nat
deriving DecidableEq, Repr

structure ListTasksOut where
  tasks : List ListedTask
  total : Nat
  counts_by_status : StatusCounts
deriving DecidableEq, Repr

/-- The bridge_list_tasks handler from tools/shared.ts (limit defaults to
50, offset to 0). -/
def bridge_list_tasks (s : BridgeState) (p : ListTasksToolParams) : ListTasksOut :=
  let tasks := listTasks s
    { status := p.status
      assigned_to := p.assigned_to
      limit := some (p.limit.getD 50)
      offset := some (p.offset.getD 0) }
  { tasks := tasks.map (fun t =>
      { id := t.id
        title := t.title
        priority := t.priority
        category := t.category
        status := t.status
        assigned_to := t.assigned_to
        created_at := t.created_at
        depends_on_count := t.depends_on.length })
    total := tasks.length
    counts_by_status := getTaskCountsByStatus s }

/-- Arguments of bridge_get_history (GetHistoryParams in types.ts). -/
structure GetHistoryToolParams where
  since : Option String := none
  limit : Option Nat := none
  offset : Option Nat := none
  category : Option Category := none
deriving Repr

structure HistoryResultView where
  success : Bool
  summary : String
  files_modified : Nat
  files_created : Nat
deriving DecidableEq, Repr

structure HistoryTaskView where
  id : String
  title : String
  category : Category
  status : TaskStatus
  created_at : String
  completed_at : Option String
  result : Option HistoryResultView
deriving DecidableEq, Repr

structure GetHistoryOut where
  tasks : List HistoryTaskView
  total : Nat
deriving DecidableEq, Repr

/-- The bridge_get_history handler from tools/shared.ts (limit defaults to
20, offset to 0). -/
def bridge_get_history (s : BridgeState) (p : GetHistoryToolParams) : GetHistoryOut :=
  let tasks := getTaskHistory s
    { since := p.since
      limit := some (p.limit.getD 20)
      offset := some (p.offset.getD 0)
      category := p.category }
  { tasks := tasks.map (fun t =>
      { id := t.id
        title := t.title
        category := t.category
        status := t.status
        created_at := t.created_at
        completed_at := t.completed_at
        result := t.result.map (fun res =>
          { success := res.success
            summary := res.summary
            files_modified := res.files_modified.length
            files_created := res.files_created.length }) })
    total := tasks.length }

/-- Arguments of bridge_get_events (the inline zod schema in
tools/shared.ts). -/
structure GetEventsToolParams where
  since : Option String := none
  task_id : Option String := none
  limit : Option Nat := none
  offset : Option Nat := none
deriving Repr

structure GetEventsOut where
  events : List EventLogEntry
  total : Nat
deriving DecidableEq, Repr

/-- The bridge_get_events handler from tools/shared.ts (limit defaults to
50, offset to 0); the handler maps each entry to the same fields, so the
view is the entry itself. -/
def bridge_get_events (s : BridgeState) (p : GetEventsToolParams) : GetEventsOut :=
  let events := getEvents s
    { since := p.since
      task_id := p.task_id
      limit := some (p.limit.getD 50)
      offset := some (p.offset.getD 0) }
  { events := events, total := events.length }

/-- Arguments of bridge_list_sessions (ListSessionsSchema in
tools/shared.ts). -/
structure ListSessionsToolParams where
  include_resumed : Option Bool := none
  limit : Option Nat := none
  offset : Option Nat := none
deriving Repr

structure SessionView where
  id : String
  saved_at : String
  resumed_at : Option String
  task_title : Option String
  working_on : String
deriving DecidableEq, Repr

structure ListSessionsOut where
  sessions : List SessionView
  total : Nat
deriving DecidableEq, Repr

/-- The bridge_list_sessions handler from tools/shared.ts (limit defaults
to 10, offset to 0); the working_on text is truncated to 100 characters
with an ellipsis. -/
def bridge_list_sessions (s : BridgeState) (role : AgentRole)
    (p : ListSessionsToolParams) : ListSessionsOut :=
  let sessions := listSessionContexts s
    { agent := some role
      include_resumed := p.include_resumed
      limit := some (p.limit.getD 10)
      offset := some (p.offset.getD 0) }
  { sessions := sessions.map (fun c =>
      { id := c.id
        saved_at := c.created_at
        resumed_at := c.resumed_at
        task_title := c.task_title
        working_on := c.working_on.take 100 ++
          (if c.working_on.length > 100 then "..." else "") })
    total := sessions.length }

/-- A task is in a terminal status (completed, failed or cancelled). -/
def terminalStatus (st : TaskStatus) : Prop :=
  st = .completed ∨ st = .failed ∨ st = .cancelled

/-
Concrete states used to exercise the theorems on explicit inputs.
-/

/-- A task with the fields that the example scenarios vary; everything else
is fixed. -/
def mkTask (id : String) (seq : Nat) (prio : Priority) (st : TaskStatus)
    (deps : List String) : Task :=
  { id := id
    sequence := seq
    priority := prio
    category := .feature
    status := st
    title := id
    instructions := "do it"
    acceptance_criteria := []
    context_files := []
    context_summary := none
    related_tasks := []
    depends_on := deps
    created_by := .architect
    assigned_to := none
    created_at := "2025-01-01T00:00:00Z"
    claimed_at := none
    started_at := none
    completed_at := none
    result := none }

/-- A state holding the given tasks and nothing else. -/
def baseState (ts : List Task) : BridgeState :=
  { tasks := ts
    seqCounter := 100
    projectState := initialProjectState
    eventLog := []
    clarifications := []
    sessions := []
    projectPath := "" }

def exHigh : Task := mkTask "t-high" 5 .high .queued []

def exCritical : Task := mkTask "t-critical" 9 .critical .queued []

/-- Two queued tasks: priority high with sequence 5 and priority critical
with sequence 9 (the scenario of the spec's scheduling example). -/
def pullExampleState : BridgeState := baseState [exHigh, exCritical]

def exDep : Task := mkTask "t-dep" 1 .normal .completed []

def exMain : Task := mkTask "t-main" 2 .normal .queued ["t-dep"]

/-- A completed dependency and a queued task depending on it. -/
def depExampleState : BridgeState := baseState [exDep, exMain]

def exDone : Task := mkTask "t-done" 3 .normal .completed []

/-- A single task already in the terminal status completed. -/
def doneExampleState : BridgeState := baseState [exDone]

/-- A clarification that has already received a response. -/
def answeredClarification : ClarificationRequest :=
  { id := "c-1"
    task_id := "t-main"
    question := "which approach"
    options := none
    response := some "first answer"
    created_at := "2025-01-01T00:00:00Z"
    responded_at := some "2025-01-01T01:00:00Z" }

def clarExampleState : BridgeState :=
  { baseState [exMain] with clarifications := [answeredClarification] }

def exSession : SessionContext :=
  { id := "s-1"
    agent := .executor
    project_path := ""
    current_task_id := none
    task_title := none
    working_on := "wiring"
    progress_made := "half"
    next_steps := "finish"
    open_questions := []
    files_in_focus := []
    important_notes := ""
    created_at := "2025-01-01T00:00:00Z"
    resumed_at := none }

def sessionExampleState : BridgeState :=
  { baseState [] with sessions := [exSession] }

/-- Fifty distinct decisions, in recorded order. -/
def fiftyDecisions : List Decision :=
  (List.range 50).map (fun i =>
    { id := toString i
      summary := "s"
      rationale := "r"
      made_by := .human
      made_at := "2025-01-01T00:00:00Z"
      affects_files := [] })

def decisionsExampleState : BridgeState :=
  { baseState [] with
    projectState := { initialProjectState with recent_decisions := fiftyDecisions } }

def exDecisionParams : AddDecisionParams :=
  { summary := "use sqlite"
    rationale := "simple"
    made_by := .agent .architect }

def exPushParams : PushTaskParams :=
  { title := "new task"
    instructions := "do the thing"
    acceptance_criteria := ["works"] }

/-
Helper lemmas.
-/

theorem find?_map_key {α : Type} {f : α → α} {p : α → Bool}
    (hp : ∀ x, p (f x) = p x) (l : List α) :
    (l.map f).find? p = (l.find? p).map f := by
  induction l with
  | nil => rfl
  | cons x xs ih =>
    rw [List.map_cons]
    by_cases hx : p x = true
    · rw [List.find?_cons_of_pos _ (by rw [hp]; exact hx), List.find?_cons_of_pos _ hx]
      rfl
    · rw [List.find?_cons_of_neg _ (by rw [hp]; exact hx), List.find?_cons_of_neg _ hx]
      exact ih

theorem map_eq_self_of_mem {α : Type} {f : α → α} {l : List α}
    (h : ∀ x ∈ l, f x = x) : l.map f = l := by
  induction l with
  | nil => rfl
  | cons x xs ih =>
    rw [List.map_cons, h x (List.mem_cons_self x xs),
      ih (fun y hy => h y (List.mem_cons_of_mem x hy))]

theorem findTask_id {l : List Task} {i : String} {t : Task}
    (h : findTask l i = some t) : t.id = i := by
  simp only [findTask] at h
  simpa using List.find?_some h

theorem findTask_mem {l : List Task} {i : String} {t : Task}
    (h : findTask l i = some t) : t ∈ l := by
  simp only [findTask] at h
  exact List.mem_of_find?_eq_some h

theorem findTask_append {l l2 : List Task} {i : String} {t : Task}
    (h : findTask l i = some t) : findTask (l ++ l2) i = some t := by
  simp only [findTask] at h ⊢
  rw [List.find?_append, h]
  rfl

theorem getTask_mem {s : BridgeState} {i : String} {t : Task}
    (h : getTask s i = some t) : t ∈ s.tasks := findTask_mem h

theorem getTask_id {s : BridgeState} {i : String} {t : Task}
    (h : getTask s i = some t) : t.id = i := findTask_id h

theorem applyUpdates_id (t : Task) (u : TaskUpdates) :
    (applyUpdates t u).id = t.id := rfl

theorem update_fun_id (j : String) (u : TaskUpdates) (x : Task) :
    (if x.id = j then applyUpdates x u else x).id = x.id := by
  by_cases hx : x.id = j <;> simp [hx, applyUpdates_id]

theorem getTask_updateTask (s : BridgeState) (j : String) (u : TaskUpdates)
    (hne : u.isEmpty = false) (i : String) :
    getTask (updateTask s j u).2 i =
      (getTask s i).map (fun t => if t.id = j then applyUpdates t u else t) := by
  simp only [updateTask, hne, Bool.false_eq_true, if_false]
  unfold getTask findTask
  exact find?_map_key (fun x => by rw [update_fun_id j u x]) s.tasks

theorem getTask_logEvent (s : BridgeState) (a : AgentRole) (e : String)
    (tid : Option String) (pl : List (String × JsonLite)) (now : String) (i : String) :
    getTask (logEvent s a e tid pl now) i = getTask s i := rfl

theorem getClarification_logEvent (s : BridgeState) (a : AgentRole) (e : String)
    (tid : Option String) (pl : List (String × JsonLite)) (now : String) (i : String) :
    getClarification (logEvent s a e tid pl now) i = getClarification s i := rfl

theorem getClarification_respond (s : BridgeState) (id response now : String)
    (i : String) :
    getClarification (respondToClarification s id response now).2 i =
      (getClarification s i).map (fun c =>
        if c.id = id then { c with response := some response, responded_at := some now }
        else c) := by
  unfold respondToClarification getClarification
  exact find?_map_key
    (fun x => by by_cases hx : x.id = id <;> simp [hx]) s.clarifications

theorem getSession_resumed (s : BridgeState) (id now : String) (i : String) :
    getSessionContext (markSessionResumed s id now).2 i =
      (getSessionContext s i).map (fun c =>
        if c.id = id then { c with resumed_at := some now } else c) := by
  unfold markSessionResumed getSessionContext
  exact find?_map_key
    (fun x => by by_cases hx : x.id = id <;> simp [hx]) s.sessions

theorem openDependencyCount_eq_zero {s : BridgeState} {deps : List String} :
    openDependencyCount s deps = 0 ↔
      ∀ u ∈ s.tasks, u.id ∈ deps → u.status = .completed := by
  unfold openDependencyCount
  rw [List.length_eq_zero, List.filter_eq_nil_iff]
  constructor
  · intro h u hu hid
    have := h u hu
    simp only [Bool.and_eq_true, decide_eq_true_eq, not_and, ne_eq, not_not] at this
    exact this hid
  · intro h u hu
    simp only [Bool.and_eq_true, decide_eq_true_eq, not_and, ne_eq, not_not]
    exact h u hu

theorem incomplete_deps_empty {s : BridgeState} {deps : List String} :
    ((deps.filterMap (getTask s)).filter
      (fun d => decide (d.status ≠ .completed))).isEmpty = true ↔
      ∀ d ∈ deps, ∀ u, getTask s d = some u → u.status = .completed := by
  rw [List.isEmpty_iff, List.filter_eq_nil_iff]
  constructor
  · intro h d hd u hu
    have := h u (List.mem_filterMap.mpr ⟨d, hd, hu⟩)
    simpa using this
  · intro h a ha
    obtain ⟨d, hd, hget⟩ := List.mem_filterMap.mp ha
    simp [h d hd a hget]

theorem taskBefore_refl (t : Task) : taskBefore t t := Or.inr ⟨rfl, le_refl _⟩

theorem getTask_ite_logEvent (b : Bool) (X : BridgeState) (a : AgentRole)
    (e : String) (tid : Option String) (pl : List (String × JsonLite))
    (now : String) (i : String) :
    getTask (if b then logEvent X a e tid pl now else X) i = getTask X i := by
  cases b <;> simp [getTask_logEvent]

theorem addDecision_length_le (s : BridgeState) (p : AddDecisionParams)
    (id now : String) :
    (addDecision s p id now).2.projectState.recent_decisions.length ≤ 50 := by
  unfold addDecision
  simp only [List.length_drop, List.length_append, List.length_cons]
  omega

theorem addDecision_overflow {s : BridgeState} (p : AddDecisionParams)
    (id now : String) (h50 : s.projectState.recent_decisions.length = 50) :
    (addDecision s p id now).2.projectState.recent_decisions =
      s.projectState.recent_decisions.tail ++ [decisionOf p id now] := by
  unfold addDecision
  simp only
  have hlen : (s.projectState.recent_decisions ++ [decisionOf p id now]).length - 50 = 1 := by
    simp [List.length_append, h50]
  rw [hlen, List.drop_append_of_le_length (by rw [h50]; omega), List.drop_one]

/-
Claim theorems.
-/

/-- Claim C2: for every state of the task store, pullNextTask never returns
a task whose depends_on list contains the identifier of a task whose status
is anything other than completed. -/
theorem pull_never_returns_unmet_dependencies :
    ∀ (s : BridgeState) (p : PullTaskDbParams) (t : Task),
      pullNextTask s p = some t →
      ∀ d ∈ t.depends_on, ∀ u, getTask s d = some u → u.status = .completed := by
  intro s p t hpull d hd u hu
  have hsat : dependenciesSatisfied s t = true := by
    unfold pullNextTask at hpull
    exact List.find?_some hpull
  unfold dependenciesSatisfied at hsat
  rw [Bool.or_eq_true] at hsat
  rcases hsat with hempty | hzero
  · rw [List.isEmpty_iff] at hempty
    rw [hempty] at hd
    exact absurd hd (List.not_mem_nil d)
  · have h0 : openDependencyCount s t.depends_on = 0 := of_decide_eq_true hzero
    exact (openDependencyCount_eq_zero.mp h0) u (getTask_mem hu)
      (by rw [getTask_id hu]; exact hd)

/-- Witness for C2: in the state with completed dependency t-dep and queued
task t-main depending on it, pullNextTask returns t-main and the theorem
yields that t-dep is completed. -/
theorem pull_never_returns_unmet_dependencies_witness :
    exDep.status = TaskStatus.completed :=
  pull_never_returns_unmet_dependencies depExampleState {} exMain rfl "t-dep"
    (by decide) exDep rfl

/-- Claim C8: addDecision keeps at most 50 decisions; adding a 51st drops
exactly the oldest one and keeps the 50 most recent in their original
order, and no sequence of addDecision calls can push the list beyond 50. -/
theorem decision_log_bounded :
    ∀ (s : BridgeState) (p : AddDecisionParams) (id now : String),
      (addDecision s p id now).2.projectState.recent_decisions.length ≤ 50 ∧
      (s.projectState.recent_decisions.length = 50 →
        (addDecision s p id now).2.projectState.recent_decisions =
          s.projectState.recent_decisions.tail ++ [decisionOf p id now] ∧
        (addDecision s p id now).2.projectState.recent_decisions.length = 50) ∧
      (∀ d0 ds, s.projectState.recent_decisions = d0 :: ds →
        s.projectState.recent_decisions.length = 50 →
        d0.id ∉ ds.map (fun d => d.id) → d0.id ≠ id →
        d0 ∉ (addDecision s p id now).2.projectState.recent_decisions) ∧
      (∀ calls : List (AddDecisionParams × String × String), calls ≠ [] →
        (calls.foldl (fun st c => (addDecision st c.1 c.2.1 c.2.2).2)
          s).projectState.recent_decisions.length ≤ 50) := by
  intro s p id now
  refine ⟨addDecision_length_le s p id now, ?_, ?_, ?_⟩
  · intro h50
    refine ⟨addDecision_overflow p id now h50, ?_⟩
    rw [addDecision_overflow p id now h50]
    simp only [List.length_append, List.length_tail, List.length_cons,
      List.length_nil, h50]
  · intro d0 ds hcons h50 hnotin hne hmem
    rw [addDecision_overflow p id now h50, hcons] at hmem
    rcases List.mem_append.mp hmem with hds | hsingle
    · rw [List.tail_cons] at hds
      exact hnotin (List.mem_map_of_mem (fun d => d.id) hds)
    · have hd0 : d0 = decisionOf p id now := by simpa using hsingle
      exact hne (by rw [hd0]; rfl)
  · intro calls
    induction calls generalizing s with
    | nil => intro h; exact absurd rfl h
    | cons c rest ih =>
      intro _
      cases rest with
      | nil => exact addDecision_length_le s c.1 c.2.1 c.2.2
      | cons c2 r2 =>
        exact ih (addDecision s c.1 c.2.1 c.2.2).2 (by simp)

/-- Witness for C8: adding a 51st decision to a state holding 50 decisions
drops the oldest and appends the new one. -/
theorem decision_log_bounded_witness :
    (addDecision decisionsExampleState exDecisionParams "d-new" "t9").2.projectState.recent_decisions =
      fiftyDecisions.tail ++ [decisionOf exDecisionParams "d-new" "t9"] :=
  ((decision_log_bounded decisionsExampleState exDecisionParams "d-new" "t9").2.1
    (by decide)).1

/-- Claim C10: for every value of the offset parameter, each of the four
paginated list tools returns exactly the result of the same call with
offset 0, because the store queries never use the offset. -/
theorem offset_pagination_no_effect :
    ∀ (s : BridgeState) (role : AgentRole) (p1 : ListTasksToolParams)
      (p2 : GetHistoryToolParams) (p3 : GetEventsToolParams)
      (p4 : ListSessionsToolParams),
      bridge_list_tasks s p1 = bridge_list_tasks s { p1 with offset := some 0 } ∧
      bridge_get_history s p2 = bridge_get_history s { p2 with offset := some 0 } ∧
      bridge_get_events s p3 = bridge_get_events s { p3 with offset := some 0 } ∧
      bridge_list_sessions s role p4 =
        bridge_list_sessions s role { p4 with offset := some 0 } := by
  intro s role p1 p2 p3 p4
  exact ⟨rfl, rfl, rfl, rfl⟩

/-- Counterexample for claim C6: on a clarification that already holds the
response "first answer", a second respondToClarification call succeeds and
silently overwrites the stored response and responded-at timestamp, instead
of failing. -/
theorem respond_clarification_overwrite_counterexample :
    (bridge_respond_clarification clarExampleState "c-1" "second answer" "t2").1 =
      Except.ok { success := true, clarification_id := "c-1" } ∧
    getClarification
        (bridge_respond_clarification clarExampleState "c-1" "second answer" "t2").2
        "c-1" =
      some { answeredClarification with
              response := some "second answer", responded_at := some "t2" } :=
  ⟨rfl, rfl⟩

/-- Claim C6 (amended): respondToClarification on an existing clarification
always succeeds and overwrites the stored response and responded-at with
the new values, whether or not a response was already present; it fails
with NotFound, leaving state unchanged, only when no clarification with
the id exists. -/
theorem respond_clarification_behavior :
    ∀ (s : BridgeState) (clarId response now : String),
      (∀ c, getClarification s clarId = some c →
        (bridge_respond_clarification s clarId response now).1 =
          Except.ok { success := true, clarification_id := clarId } ∧
        getClarification (bridge_respond_clarification s clarId response now).2 clarId =
          some { c with response := some response, responded_at := some now }) ∧
      (getClarification s clarId = none →
        bridge_respond_clarification s clarId response now =
          (Except.error (.NotFound clarId), s)) := by
  intro s clarId response now
  constructor
  · intro c hc
    have hid : c.id = clarId := by
      unfold getClarification at hc
      simpa using List.find?_some hc
    have h1 : (respondToClarification s clarId response now).1 = true := by
      unfold respondToClarification
      rw [List.any_eq_true]
      refine ⟨c, ?_, by simp [hid]⟩
      unfold getClarification at hc
      exact List.mem_of_find?_eq_some hc
    have h2 : getClarification (respondToClarification s clarId response now).2 clarId =
        some { c with response := some response, responded_at := some now } := by
      rw [getClarification_respond, hc]
      simp [hid]
    simp only [bridge_respond_clarification, h1, if_true]
    exact ⟨by trivial, by rw [getClarification_logEvent]; exact h2⟩
  · intro hnone
    have hall : ∀ x ∈ s.clarifications, ¬(x.id = clarId) := by
      unfold getClarification at hnone
      intro x hx
      have := List.find?_eq_none.mp hnone x hx
      simpa using this
    have hany : (s.clarifications.any (fun x => decide (x.id = clarId))) = false := by
      rw [Bool.eq_false_iff]
      intro htrue
      rw [List.any_eq_true] at htrue
      obtain ⟨x, hx, hpx⟩ := htrue
      exact hall x hx (of_decide_eq_true hpx)
    have hmap : s.clarifications.map (fun x =>
        if x.id = clarId then
          { x with response := some response, responded_at := some now }
        else x) = s.clarifications :=
      map_eq_self_of_mem (fun x hx => if_neg (hall x hx))
    unfold bridge_respond_clarification respondToClarification
    simp only [hany, Bool.false_eq_true, if_false]
    rw [hmap]

/-- Witness for the amended C6 at the concrete already-answered
clarification. -/
theorem respond_clarification_behavior_witness :
    getClarification
        (bridge_respond_clarification clarExampleState "c-1" "second answer" "t3").2
        "c-1" =
      some { answeredClarification with
              response := some "second answer", responded_at := some "t3" } :=
  ((respond_clarification_behavior clarExampleState "c-1" "second answer" "t3").1
    answeredClarification rfl).2

/-- Counterexample for claim C7: after a first markSessionResumed call, a
second call on the same session returns true (not false) and overwrites the
stored resumed-at timestamp with the new time. -/
theorem mark_session_resumed_second_call_counterexample :
    (markSessionResumed (markSessionResumed sessionExampleState "s-1" "t1").2
        "s-1" "t2").1 = true ∧
    getSessionContext
        (markSessionResumed (markSessionResumed sessionExampleState "s-1" "t1").2
          "s-1" "t2").2 "s-1" =
      some { exSession with resumed_at := some "t2" } :=
  ⟨rfl, rfl⟩

/-- Claim C7 (amended): markSessionResumed returns true exactly when a
session with the given id exists, and every such call (first or later)
overwrites resumed-at with the current time; it is a no-op returning false
only when the session does not exist. -/
theorem mark_session_resumed_behavior :
    ∀ (s : BridgeState) (id now : String),
      ((markSessionResumed s id now).1 = true ↔ ∃ c ∈ s.sessions, c.id = id) ∧
      (∀ c, getSessionContext s id = some c →
        getSessionContext (markSessionResumed s id now).2 id =
          some { c with resumed_at := some now }) ∧
      (getSessionContext s id = none → (markSessionResumed s id now).2 = s) := by
  intro s id now
  refine ⟨?_, ?_, ?_⟩
  · unfold markSessionResumed
    rw [List.any_eq_true]
    constructor
    · rintro ⟨c, hc, hp⟩
      exact ⟨c, hc, of_decide_eq_true hp⟩
    · rintro ⟨c, hc, hp⟩
      exact ⟨c, hc, by simp [hp]⟩
  · intro c hc
    have hid : c.id = id := by
      unfold getSessionContext at hc
      simpa using List.find?_some hc
    rw [getSession_resumed, hc]
    simp [hid]
  · intro hnone
    have hall : ∀ x ∈ s.sessions, ¬(x.id = id) := by
      unfold getSessionContext at hnone
      intro x hx
      have := List.find?_eq_none.mp hnone x hx
      simpa using this
    have hmap : s.sessions.map (fun x =>
        if x.id = id then { x with resumed_at := some now } else x) = s.sessions :=
      map_eq_self_of_mem (fun x hx => if_neg (hall x hx))
    unfold markSessionResumed
    simp only
    rw [hmap]

/-- Witness for the amended C7 at the concrete session. -/
theorem mark_session_resumed_behavior_witness :
    getSessionContext (markSessionResumed sessionExampleState "s-1" "t5").2 "s-1" =
      some { exSession with resumed_at := some "t5" } :=
  (mark_session_resumed_behavior sessionExampleState "s-1" "t5").2.1 exSession rfl

/-- Claim C5: bridge_push_task fails with DependencyNotFound and creates no
task record when some identifier in the dependency list does not reference
an existing task; when every listed identifier exists, the created task has
status queued. -/
theorem push_task_dependency_validation :
    ∀ (s : BridgeState) (p : PushTaskParams) (id now : String),
      ((∃ d ∈ p.depends_on.getD [], getTask s d = none) →
        ∃ d, bridge_push_task s p id now = (.error (.DependencyNotFound d), s)) ∧
      ((∀ d ∈ p.depends_on.getD [], (getTask s d).isSome) →
        ∃ nt, (bridge_push_task s p id now).2.tasks = s.tasks ++ [nt] ∧
          nt.status = .queued ∧
          ∃ out, (bridge_push_task s p id now).1 = .ok out ∧
            out.status = .queued) := by
  intro s p id now
  constructor
  · rintro ⟨d, hd, hnone⟩
    have hne : (p.depends_on.getD []).find? (fun x => (getTask s x).isNone) ≠ none := by
      intro hfind
      have := List.find?_eq_none.mp hfind d hd
      simp [hnone] at this
    obtain ⟨d2, hd2⟩ := Option.ne_none_iff_exists'.mp hne
    refine ⟨d2, ?_⟩
    unfold bridge_push_task
    rw [hd2]
  · intro hall
    have hfind : (p.depends_on.getD []).find? (fun x => (getTask s x).isNone) = none := by
      rw [List.find?_eq_none]
      intro x hx
      have hs := hall x hx
      intro hno
      rw [Option.isNone_iff_eq_none] at hno
      rw [hno] at hs
      simp at hs
    unfold bridge_push_task
    rw [hfind]
    exact ⟨_, rfl, rfl, _, rfl, rfl⟩

/-- Witness for C5: pushing a task with no dependencies into the empty
state creates a queued task. -/
theorem push_task_dependency_validation_witness :
    ∃ nt, (bridge_push_task (baseState []) exPushParams "t-new" "t0").2.tasks =
        (baseState []).tasks ++ [nt] ∧ nt.status = .queued ∧
      ∃ out, (bridge_push_task (baseState []) exPushParams "t-new" "t0").1 = .ok out ∧
        out.status = .queued :=
  (push_task_dependency_validation (baseState []) exPushParams "t-new" "t0").2
    (by decide)

/-- Claim C4: bridge_claim_task succeeds exactly when the task is queued
and every dependency row that exists is completed; on success it sets
status claimed, assigns the executor role and records claimed_at; from any
other status it fails with InvalidStateTransition naming the current
status, and from queued with an incomplete dependency it fails with
DependencyUnmet, leaving the state unchanged in both failure cases. -/
theorem claim_task_characterization :
    ∀ (s : BridgeState) (taskId now : String) (t : Task),
      getTask s taskId = some t →
      ((∃ out s2, bridge_claim_task s taskId now = (.ok out, s2)) ↔
        (t.status = .queued ∧
          ∀ d ∈ t.depends_on, ∀ u, getTask s d = some u → u.status = .completed)) ∧
      (t.status = .queued →
        (∀ d ∈ t.depends_on, ∀ u, getTask s d = some u → u.status = .completed) →
        getTask (bridge_claim_task s taskId now).2 taskId =
          some { t with status := .claimed, assigned_to := some .executor,
                        claimed_at := some now }) ∧
      (t.status ≠ .queued →
        bridge_claim_task s taskId now =
          (.error (.InvalidStateTransition t.status), s)) ∧
      (t.status = .queued →
        ¬(∀ d ∈ t.depends_on, ∀ u, getTask s d = some u → u.status = .completed) →
        ∃ ids, bridge_claim_task s taskId now =
          (.error (.DependencyUnmet ids), s)) := by
  intro s taskId now t hget
  have hid : t.id = taskId := getTask_id hget
  have herr : t.status ≠ .queued →
      bridge_claim_task s taskId now =
        (.error (.InvalidStateTransition t.status), s) := by
    intro hq
    simp only [bridge_claim_task, hget]
    rw [if_neg hq]
  have hdeperr : t.status = .queued →
      ¬(∀ d ∈ t.depends_on, ∀ u, getTask s d = some u → u.status = .completed) →
      bridge_claim_task s taskId now =
        (.error (.DependencyUnmet (((t.depends_on.filterMap (getTask s)).filter
          (fun d => decide (d.status ≠ .completed))).map (fun d => d.id))), s) := by
    intro hq hdeps
    have hempty : ((t.depends_on.filterMap (getTask s)).filter
        (fun d => decide (d.status ≠ .completed))).isEmpty = false := by
      rw [Bool.eq_false_iff]
      intro htrue
      exact hdeps (incomplete_deps_empty.mp htrue)
    simp only [bridge_claim_task, hget]
    rw [if_pos hq, if_neg (by rw [hempty]; exact Bool.false_ne_true)]
  have hok : t.status = .queued →
      (∀ d ∈ t.depends_on, ∀ u, getTask s d = some u → u.status = .completed) →
      ∃ out s2, bridge_claim_task s taskId now = (.ok out, s2) := by
    intro hq hdeps
    have hempty := incomplete_deps_empty.mpr hdeps
    simp only [bridge_claim_task, hget]
    rw [if_pos hq, if_pos hempty]
    exact ⟨_, _, rfl⟩
  refine ⟨?_, ?_, herr, fun hq hdeps => ⟨_, hdeperr hq hdeps⟩⟩
  · constructor
    · rintro ⟨out, s2, heq⟩
      by_cases hq : t.status = .queued
      · refine ⟨hq, ?_⟩
        by_contra hdeps
        rw [hdeperr hq hdeps] at heq
        simp at heq
      · rw [herr hq] at heq
        simp at heq
    · rintro ⟨hq, hdeps⟩
      exact hok hq hdeps
  · intro hq hdeps
    have hempty := incomplete_deps_empty.mpr hdeps
    simp only [bridge_claim_task, hget]
    rw [if_pos hq, if_pos hempty]
    rw [getTask_ite_logEvent,
      getTask_updateTask s taskId
        { status := some .claimed
          assigned_to := some (some .executor)
          claimed_at := some (some now) } rfl taskId,
      hget]
    simp only [Option.map_some']
    rw [if_pos hid]
    rfl

/-- Witness for C4: claiming the queued task t-main, whose only dependency
t-dep is completed, marks it claimed, assigned to the executor, with the
claim timestamp recorded. -/
theorem claim_task_characterization_witness :
    getTask (bridge_claim_task depExampleState "t-main" "t7").2 "t-main" =
      some { exMain with status := TaskStatus.claimed,
                         assigned_to := some .executor,
                         claimed_at := some "t7" } :=
  (claim_task_characterization depExampleState "t-main" "t7" exMain rfl).2.1 rfl
    (by
      intro d hd u hu
      have hd2 : d = "t-dep" := by
        have hd3 : d ∈ ["t-dep"] := hd
        simpa using hd3
      subst hd2
      have hu2 : some exDep = some u := hu
      cases hu2
      rfl)

/-- Claim C1: pullNextTask considers exactly the queued tasks matching the
optional category and assignment filters, ordered by priority rank
ascending then sequence ascending, and returns the first task in that
order whose dependencies are satisfied; when no such task exists it
returns none (a normal outcome, not an error); and in the concrete
scenario of a queued critical task with sequence 9 and a queued high task
with sequence 5 it returns the critical one. -/
theorem pull_next_task_scheduling :
    (∀ (s : BridgeState) (p : PullTaskDbParams) (t : Task),
      pullNextTask s p = some t →
        t ∈ s.tasks ∧ pullCandidate p t = true ∧
        dependenciesSatisfied s t = true ∧
        ∀ u ∈ s.tasks, pullCandidate p u = true →
          dependenciesSatisfied s u = true → taskBefore t u) ∧
    (∀ (s : BridgeState) (p : PullTaskDbParams),
      pullNextTask s p = none →
        ∀ u ∈ s.tasks, pullCandidate p u = true →
          dependenciesSatisfied s u = false) ∧
    pullNextTask pullExampleState {} = some exCritical := by
  refine ⟨?_, ?_, by decide⟩
  · intro s p t hpull
    unfold pullNextTask at hpull
    obtain ⟨hsat, as, bs, hsplit, hbefore⟩ := List.find?_eq_some.mp hpull
    have htmem : t ∈ List.insertionSort taskBefore (s.tasks.filter (pullCandidate p)) := by
      rw [hsplit]
      exact List.mem_append.mpr (Or.inr (List.mem_cons_self t bs))
    have htfilter : t ∈ s.tasks.filter (pullCandidate p) :=
      (List.mem_insertionSort taskBefore).mp htmem
    obtain ⟨htasks, hcand⟩ := List.mem_filter.mp htfilter
    refine ⟨htasks, hcand, hsat, ?_⟩
    intro u hu hucand husat
    have huL : u ∈ List.insertionSort taskBefore (s.tasks.filter (pullCandidate p)) :=
      (List.mem_insertionSort taskBefore).mpr (List.mem_filter.mpr ⟨hu, hucand⟩)
    have hsorted : List.Pairwise taskBefore
        (List.insertionSort taskBefore (s.tasks.filter (pullCandidate p))) :=
      List.sorted_insertionSort taskBefore _
    rw [hsplit] at huL hsorted
    rcases List.mem_append.mp huL with hua | hub
    · exfalso
      have hns := hbefore u hua
      rw [husat] at hns
      simp at hns
    · rcases List.mem_cons.mp hub with heq | hubs
      · rw [heq]
        exact taskBefore_refl t
      · have hpair := (List.pairwise_append.mp hsorted).2.1
        exact (List.pairwise_cons.mp hpair).1 u hubs
  · intro s p hnone u hu hucand
    unfold pullNextTask at hnone
    have hns := List.find?_eq_none.mp hnone u
      ((List.mem_insertionSort taskBefore).mpr (List.mem_filter.mpr ⟨hu, hucand⟩))
    simpa using hns

/-- Witness for C1: in the two-task scenario the theorem applied to the
returned critical task shows it is scheduled before the high task. -/
theorem pull_next_task_scheduling_witness :
    taskBefore exCritical exHigh :=
  (pull_next_task_scheduling.1 pullExampleState {} exCritical (by decide)).2.2.2
    exHigh (by decide) (by decide) (by decide)

theorem terminal_target_ne {s : BridgeState} {i j : String} {t t2 : Task}
    (hi : getTask s i = some t) (hj : getTask s j = some t2)
    (hterm : terminalStatus t.status) (hnt : ¬ terminalStatus t2.status) :
    i ≠ j := by
  intro h
  subst h
  rw [hi] at hj
  cases hj
  exact hnt hterm

theorem not_terminal_of_eq {st : TaskStatus}
    (h : st = .queued ∨ st = .claimed ∨ st = .in_progress ∨ st = .blocked) :
    ¬ terminalStatus st := by
  rcases h with h | h | h | h <;> rw [h] <;> simp [terminalStatus]

theorem getTask_updateTask_ne {s : BridgeState} {i : String} (j : String)
    {t : Task} (hget : getTask s i = some t) (hne : i ≠ j) (u : TaskUpdates) :
    getTask (updateTask s j u).2 i = some t := by
  by_cases he : u.isEmpty = true
  · simp only [updateTask, he, if_true]
    exact hget
  · have he2 : u.isEmpty = false := Bool.eq_false_iff.mpr he
    rw [getTask_updateTask s j u he2 i, hget]
    simp only [Option.map_some']
    have hid : t.id = i := getTask_id hget
    rw [if_neg (by rw [hid]; exact hne)]

/-- Claim C3: a task in a terminal status (completed, failed or cancelled)
is immutable: bridge_update_task on it fails with InvalidStateTransition
naming the status and leaves the state unchanged, and no state-changing
tool operation (create, update, cancel, claim, progress report, complete,
fail, request or respond to clarification) ever changes a stored terminal
task. -/
theorem terminal_tasks_immutable :
    (∀ (s : BridgeState) (taskId : String) (t : Task) (u : UpdateTaskFields)
       (now : String),
      getTask s taskId = some t → terminalStatus t.status →
      bridge_update_task s taskId u now =
        (.error (.InvalidStateTransition t.status), s)) ∧
    (∀ (s : BridgeState) (op : BridgeOp) (i : String) (t : Task),
      getTask s i = some t → terminalStatus t.status →
      getTask (runOp s op).2 i = some t) := by
  constructor
  · intro s taskId t u now hget hterm
    simp only [bridge_update_task, hget]
    unfold terminalStatus at hterm
    rw [if_pos hterm]
  · intro s op i t hget hterm
    cases op with
    | push p id now =>
      simp only [runOp, bridge_push_task]
      cases hf : (p.depends_on.getD []).find? (fun d => (getTask s d).isNone) with
      | some d => simp only [hf]; exact hget
      | none => simp only [hf]; exact findTask_append hget
    | update taskId u now =>
      simp only [runOp, bridge_update_task]
      cases hj : getTask s taskId with
      | none => simp only [hj]; exact hget
      | some t2 =>
        simp only [hj]
        by_cases hc : t2.status = .completed ∨ t2.status = .failed ∨
            t2.status = .cancelled
        · rw [if_pos hc]
          exact hget
        · rw [if_neg hc]
          have hne2 : i ≠ taskId := terminal_target_ne hget hj hterm hc
          rw [getTask_ite_logEvent]
          exact getTask_updateTask_ne taskId hget hne2 _
    | cancel taskId reason now =>
      simp only [runOp, bridge_cancel_task]
      cases hj : getTask s taskId with
      | none => simp only [hj]; exact hget
      | some t2 =>
        simp only [hj]
        by_cases hc : t2.status = .queued ∨ t2.status = .blocked
        · rw [if_pos hc]
          have hnt : ¬ terminalStatus t2.status := not_terminal_of_eq (by tauto)
          have hne2 : i ≠ taskId := terminal_target_ne hget hj hterm hnt
          rw [getTask_ite_logEvent]
          exact getTask_updateTask_ne taskId hget hne2 _
        · rw [if_neg hc]
          exact hget
    | claim taskId now =>
      simp only [runOp, bridge_claim_task]
      cases hj : getTask s taskId with
      | none => simp only [hj]; exact hget
      | some t2 =>
        simp only [hj]
        by_cases hc : t2.status = .queued
        · rw [if_pos hc]
          by_cases hinc : ((t2.depends_on.filterMap (getTask s)).filter
              (fun d => decide (d.status ≠ .completed))).isEmpty = true
          · rw [if_pos hinc]
            have hnt : ¬ terminalStatus t2.status := not_terminal_of_eq (Or.inl hc)
            have hne2 : i ≠ taskId := terminal_target_ne hget hj hterm hnt
            rw [getTask_ite_logEvent]
            exact getTask_updateTask_ne taskId hget hne2 _
          · rw [if_neg hinc]
            exact hget
        · rw [if_neg hc]
          exact hget
    | report p now =>
      simp only [runOp, bridge_report_progress]
      cases hj : getTask s p.task_id with
      | none => simp only [hj]; exact hget
      | some t2 =>
        simp only [hj]
        by_cases hc : t2.status = .claimed ∨ t2.status = .in_progress
        · rw [if_pos hc]
          have hnt : ¬ terminalStatus t2.status := not_terminal_of_eq (by tauto)
          have hne2 : i ≠ p.task_id := terminal_target_ne hget hj hterm hnt
          rw [getTask_logEvent]
          exact getTask_updateTask_ne p.task_id hget hne2 _
        · rw [if_neg hc]
          exact hget
    | complete taskId res now =>
      simp only [runOp, bridge_complete_task]
      cases hj : getTask s taskId with
      | none => simp only [hj]; exact hget
      | some t2 =>
        simp only [hj]
        by_cases hc : t2.status = .claimed ∨ t2.status = .in_progress
        · rw [if_pos hc]
          have hnt : ¬ terminalStatus t2.status := not_terminal_of_eq (by tauto)
          have hne2 : i ≠ taskId := terminal_target_ne hget hj hterm hnt
          rw [getTask_ite_logEvent]
          exact getTask_updateTask_ne taskId hget hne2 _
        · rw [if_neg hc]
          exact hget
    | fail p now =>
      simp only [runOp, bridge_fail_task]
      cases hj : getTask s p.task_id with
      | none => simp only [hj]; exact hget
      | some t2 =>
        simp only [hj]
        by_cases hc : t2.status = .claimed ∨ t2.status = .in_progress ∨
            t2.status = .blocked
        · rw [if_pos hc]
          have hnt : ¬ terminalStatus t2.status := not_terminal_of_eq (by tauto)
          have hne2 : i ≠ p.task_id := terminal_target_ne hget hj hterm hnt
          rw [getTask_ite_logEvent]
          exact getTask_updateTask_ne p.task_id hget hne2 _
        · rw [if_neg hc]
          exact hget
    | requestClar p id now =>
      simp only [runOp, bridge_request_clarification]
      cases hj : getTask s p.task_id with
      | none => simp only [hj]; exact hget
      | some t2 =>
        simp only [hj]
        by_cases hc : t2.status = .claimed ∨ t2.status = .in_progress
        · rw [if_pos hc]
          have hnt : ¬ terminalStatus t2.status := not_terminal_of_eq (by tauto)
          have hne2 : i ≠ p.task_id := terminal_target_ne hget hj hterm hnt
          have hget2 : getTask (createClarification s
              { task_id := p.task_id, question := p.question, options := p.options }
              id now).2 i = some t := hget
          rw [getTask_logEvent]
          exact getTask_updateTask_ne p.task_id hget2 hne2 _
        · rw [if_neg hc]
          exact hget
    | respondClar clarId response now =>
      simp only [runOp, bridge_respond_clarification]
      by_cases hb : (respondToClarification s clarId response now).1 = true
      · rw [if_pos hb]
        exact hget
      · rw [if_neg hb]
        exact hget

/-- Witness for C3: updating the completed task t-done fails with
InvalidStateTransition and leaves the state unchanged. -/
theorem terminal_tasks_immutable_witness :
    bridge_update_task doneExampleState "t-done" {} "t1" =
      (.error (.InvalidStateTransition TaskStatus.completed), doneExampleState) :=
  terminal_tasks_immutable.1 doneExampleState "t-done" exDone {} "t1" rfl
    (Or.inl rfl)

/-- Claim C9: whenever one of the nine state-changing tool operations
returns a typed failure, the stored state after the call is exactly the
state before it: there are no partial writes on any failure path. -/
theorem failed_operations_leave_state_unchanged :
    ∀ (s : BridgeState) (op : BridgeOp) (e : BridgeError),
      (runOp s op).1 = .error e → (runOp s op).2 = s := by
  intro s op e h
  cases op with
  | push p id now =>
    simp only [runOp, bridge_push_task] at h ⊢
    cases hf : (p.depends_on.getD []).find? (fun d => (getTask s d).isNone) with
    | some d => simp [hf]
    | none => simp [hf, Except.map] at h
  | update taskId u now =>
    simp only [runOp, bridge_update_task] at h ⊢
    cases hj : getTask s taskId with
    | none => simp [hj]
    | some t2 =>
      by_cases hc : t2.status = .completed ∨ t2.status = .failed ∨
          t2.status = .cancelled
      · simp [hj, hc]
      · simp [hj, hc, Except.map] at h
  | cancel taskId reason now =>
    simp only [runOp, bridge_cancel_task] at h ⊢
    cases hj : getTask s taskId with
    | none => simp [hj]
    | some t2 =>
      by_cases hc : t2.status = .queued ∨ t2.status = .blocked
      · simp [hj, hc, Except.map] at h
      · simp [hj, hc]
  | claim taskId now =>
    simp only [runOp, bridge_claim_task] at h ⊢
    cases hj : getTask s taskId with
    | none => simp [hj]
    | some t2 =>
      simp only [hj] at h ⊢
      by_cases hc : t2.status = .queued
      · rw [if_pos hc] at h ⊢
        by_cases hinc : ((t2.depends_on.filterMap (getTask s)).filter
            (fun d => decide (d.status ≠ .completed))).isEmpty = true
        · rw [if_pos hinc] at h
          simp [Except.map] at h
        · rw [if_neg hinc] at h ⊢
      · rw [if_neg hc] at h ⊢
  | report p now =>
    simp only [runOp, bridge_report_progress] at h ⊢
    cases hj : getTask s p.task_id with
    | none => simp [hj]
    | some t2 =>
      by_cases hc : t2.status = .claimed ∨ t2.status = .in_progress
      · simp [hj, hc, Except.map] at h
      · simp [hj, hc]
  | complete taskId res now =>
    simp only [runOp, bridge_complete_task] at h ⊢
    cases hj : getTask s taskId with
    | none => simp [hj]
    | some t2 =>
      by_cases hc : t2.status = .claimed ∨ t2.status = .in_progress
      · simp [hj, hc, Except.map] at h
      · simp [hj, hc]
  | fail p now =>
    simp only [runOp, bridge_fail_task] at h ⊢
    cases hj : getTask s p.task_id with
    | none => simp [hj]
    | some t2 =>
      by_cases hc : t2.status = .claimed ∨ t2.status = .in_progress ∨
          t2.status = .blocked
      · simp [hj, hc, Except.map] at h
      · simp [hj, hc]
  | requestClar p id now =>
    simp only [runOp, bridge_request_clarification] at h ⊢
    cases hj : getTask s p.task_id with
    | none => simp [hj]
    | some t2 =>
      by_cases hc : t2.status = .claimed ∨ t2.status = .in_progress
      · simp [hj, hc, Except.map] at h
      · simp [hj, hc]
  | respondClar clarId response now =>
    simp only [runOp, bridge_respond_clarification] at h ⊢
    by_cases hb : (respondToClarification s clarId response now).1 = true
    · simp [hb, Except.map] at h
    · rw [if_neg hb]
      have hall : ∀ x ∈ s.clarifications, ¬(x.id = clarId) := by
        intro x hx hxid
        apply hb
        unfold respondToClarification
        rw [List.any_eq_true]
        exact ⟨x, hx, by simp [hxid]⟩
      show (respondToClarification s clarId response now).2 = s
      unfold respondToClarification
      simp only
      rw [map_eq_self_of_mem (fun x hx => if_neg (hall x hx))]

/-- Witness for C9: updating a nonexistent task in the fresh state fails
with NotFound and leaves the state unchanged. -/
theorem failed_operations_leave_state_unchanged_witness :
    (runOp (initialState "") (.update "t-x" {} "t1")).2 = initialState "" :=
  failed_operations_leave_state_unchanged (initialState "")
    (.update "t-x" {} "t1") (.NotFound "t-x") rfl

end Bridge
